import Mathlib

/-!
# Signal-continuity test client (`test-signal-continuity.c`)

A shallow embedding of `main` from
`projects/radar_122_88/client/test-signal-continuity.c`.

Conventions of the embedding

* `int` and `int32_t` values are mathematical integers (`Int`); every C
  operation on them is followed by an explicit reduction into the 32-bit
  32-bit wrap-around range (`wrapInt32`).  Wherever a statement depends on the
  absence of overflow, the unreduced value is shown to lie in the range.
* `uint32_t` values are natural numbers below `2 ^ 32` (`toUint32`).
* The array `data` is a map from word index to `int32_t` value; the array
  `command` is a list of three `uint32_t` words.
* The calls into the C library and the kernel (`socket`, `connect`, `send`,
  `recv`, `printf`, `perror`, and the double-precision `floor`, `cos`, `sin`)
  are not part of the program text.  Their results are inputs of the model
  (`Env`, `Recv`), and the calls the program makes are recorded as `Event`s.
-/

namespace SignalContinuity

/-! ## Machine integers -/

/-- Smallest `int32_t`. -/
def INT32_MIN : Int := -2147483648

/-- Largest `int32_t`. -/
def INT32_MAX : Int := 2147483647

/-- Membership in the range of `int32_t`. -/
def inInt32 (x : Int) : Prop := INT32_MIN ≤ x ∧ x ≤ INT32_MAX

instance (x : Int) : Decidable (inInt32 x) := by
  unfold inInt32; exact inferInstance

/-- Reduction of an integer into the 32-bit wrap-around 32-bit range. -/
def wrapInt32 (x : Int) : Int := (x + 2147483648) % 4294967296 - 2147483648

/-- Conversion of an `int` to `uint32_t` (assignment to `command[k]`). -/
def toUint32 (x : Int) : Nat := (x % 4294967296).toNat

/-- The C expression `a + b` on `int`. -/
def add32 (a b : Int) : Int := wrapInt32 (a + b)

/-- The C expression `a - b` on `int`. -/
def sub32 (a b : Int) : Int := wrapInt32 (a - b)

/-- The C expression `a * b` on `int`. -/
def mul32 (a b : Int) : Int := wrapInt32 (a * b)

/-- The C expression `a << s` on `int`. -/
def shl32 (a : Int) (s : Nat) : Int := wrapInt32 (a * 2 ^ s)

/-- The C library function `abs` on `int`. -/
def abs32 (x : Int) : Int := wrapInt32 (if x < 0 then -x else x)

/-! ## Constants of the program -/

/-- The constant `N` (line 21): capacity of the buffer in sample records. -/
def N : Nat := 524288

/-- The value assigned to `size` (line 49). -/
def size : Nat := 131072

/-! ## Command words (lines 59-61 and 65) -/

/-- Line 59: `command[0] = 20`. -/
def opcodeWord : Nat := toUint32 20

/-- Line 60: `command[1] = (1 << 28) + 10000000`. -/
def rateWord : Nat := toUint32 (add32 (shl32 1 28) 10000000)

/-- Line 61: `command[2] = (2 << 28) + (16 * size)`, as a function of `size`. -/
def lengthWord (sz : Int) : Nat := toUint32 (add32 (shl32 2 28) (mul32 16 sz))

/-- Line 65: `command[0] = (3 << 28)`. -/
def triggerWord : Nat := toUint32 (shl32 3 28)

/-- The array `command` after lines 59-61. -/
def configureCommand (sz : Int) : List Nat := [opcodeWord, rateWord, lengthWord sz]

/-- The array `command` after line 65: word 0 is overwritten, words 1 and 2 stay. -/
def triggerCommand (sz : Int) : List Nat := (configureCommand sz).set 0 triggerWord

/-- Tag of a command word: its top four bits. -/
def tagOf (w : Nat) : Nat := w / 2 ^ 28

/-- Value of a command word: its bottom 28 bits. -/
def valueOf (w : Nat) : Nat := w % 2 ^ 28

/-- The words of `command` covered by `send(sock, command, len, MSG_NOSIGNAL)`:
the first `len` bytes of the array, four bytes to a word. -/
def sentWords (command : List Nat) (len : Nat) : List Nat := command.take (len / 4)

/-! ## Waveform generator (lines 51-57) -/

/-- The values of the double-precision expressions of lines 53 and 54 after the
cast to `int32_t`, for index `i` and waveform length `sz`.  They are computed by
the C library in floating point and enter the model as given. -/
structure Waveform where
  cosWord : Nat → Nat → Int
  sinWord : Nat → Nat → Int

/-- The assignment `data[j] = v`. -/
def setWord (data : Nat → Int) (j : Nat) (v : Int) : Nat → Int :=
  fun x => if x = j then v else data x

/-- Body of the generator loop (lines 53-56) for index `i`. -/
def genStep (w : Waveform) (sz : Nat) (data : Nat → Int) (i : Nat) : Nat → Int :=
  let data0 := setWord data (i * 4 + 0) (w.cosWord i sz)
  let data1 := setWord data0 (i * 4 + 1) (w.sinWord i sz)
  let data2 := setWord data1 (i * 4 + 2) 0
  setWord data2 (i * 4 + 3) 0

/-- The generator loop `for(i = 0; i < size; ++i)`. -/
def generate (w : Waveform) (sz : Nat) (data : Nat → Int) : Nat → Int :=
  (List.range sz).foldl (genStep w sz) data

/-! ## Continuity scan (lines 71-76) -/

/-- The in-phase component of record `i`: the word `data[i * 4]`. -/
def inPhase (data : Nat → Int) (i : Nat) : Int := data (i * 4)

/-- Line 74: the value assigned to `d` for index `i`,
`abs(data[i * 4] - data[(i - 1) * 4])`. -/
def diffAt (data : Nat → Int) (i : Nat) : Int :=
  abs32 (sub32 (data (i * 4)) (data ((i - 1) * 4)))

/-- Body of the scan loop (lines 74-75) for index `i`, returning the new `dmax`. -/
def scanStep (data : Nat → Int) (dmax : Int) (i : Nat) : Int :=
  let d := diffAt data i
  if dmax < d then d else dmax

/-- The scan loop started with `m` iterations to go, at index `i`, with the
running maximum `dmax`. -/
def scanLoop (data : Nat → Int) : Nat → Nat → Int → Int
  | 0, _, dmax => dmax
  | m + 1, i, dmax => scanLoop data m (i + 1) (scanStep data dmax i)

/-- Lines 71-76: `dmax = 0; for(i = 1; i < n; ++i) ...`; the loop runs `n - 1`
times, for `i = 1, ..., n - 1`.  The program uses `n = N`. -/
def scan (n : Nat) (data : Nat → Int) : Int := scanLoop data (n - 1) 1 0

/-! ## Observable calls -/

/-- The two calls whose failure is reported through `perror`. -/
inductive Syscall
  | socket
  | connect
  deriving DecidableEq

/-- The calls with an outside effect that `main` makes, with their arguments:
the contents of the buffer passed and the length requested. -/
inductive Event
  | perror (call : Syscall)
  | sendCommand (command : List Nat) (len : Nat)
  | sendData (data : Nat → Int) (len : Nat)
  | recv (len : Nat) (ret : Int)
  | printf (dmax : Int)

/-- Whether an event is a call of `send`. -/
def Event.isSend : Event → Bool
  | Event.sendCommand _ _ => true
  | Event.sendData _ _ => true
  | _ => false

/-- Whether an event is a call of `printf`. -/
def Event.isPrintf : Event → Bool
  | Event.printf _ => true
  | _ => false

/-! ## Monitoring loop (lines 68-78) -/

/-- Outcome of one call `recv(sock, data, 16 * N, MSG_WAITALL)`: the return
value (the number of bytes stored, `0` when the peer has closed the connection,
`-1` on error) and the words that arrived. -/
structure Recv where
  ret : Int
  incoming : Nat → Int

/-- Effect of the call on `data`: the words reached by the `ret` bytes stored
take the arriving values, all other words keep their previous contents. -/
def recvInto (r : Recv) (data : Nat → Int) : Nat → Int :=
  fun j => if 4 * (j : Int) < r.ret then r.incoming j else data j

/-- Line 77: `dmax` is printed when `dmax > 1000000`. -/
def report (dmax : Int) : List Event :=
  if dmax > 1000000 then [Event.printf dmax] else []

/-- The variables of `main` that live across iterations of the loop. -/
structure Locals where
  data : Nat → Int
  dmax : Int

/-- One iteration of `while(1)`: the receive (its return value is not used),
the scan, the report.  Returns the variables afterwards and the calls made. -/
def loopBody (r : Recv) (st : Locals) : Locals × List Event :=
  let data := recvInto r st.data
  let dmax := scan N data
  (Locals.mk data dmax, Event.recv (16 * N) r.ret :: report dmax)

/-- The variables at the head of iteration `k` (counted from 0). -/
def localsAt (st0 : Locals) (recvs : Nat → Recv) : Nat → Locals
  | 0 => st0
  | k + 1 => (loopBody (recvs k) (localsAt st0 recvs k)).1

/-- The variables at the end of iteration `k`. -/
def localsAfter (st0 : Locals) (recvs : Nat → Recv) (k : Nat) : Locals :=
  localsAt st0 recvs (k + 1)

/-- The calls made during iteration `k`. -/
def iterEvents (st0 : Locals) (recvs : Nat → Recv) (k : Nat) : List Event :=
  (loopBody (recvs k) (localsAt st0 recvs k)).2

/-- The calls made by the first `k` iterations. -/
def monitorTrace (st0 : Locals) (recvs : Nat → Recv) : Nat → List Event
  | 0 => []
  | k + 1 => monitorTrace st0 recvs k ++ iterEvents st0 recvs k

/-! ## The program -/

/-- Everything `main` obtains from outside: the return values of `socket` and
`connect`, the contents of the block returned by `malloc`, the indeterminate
initial value of `dmax`, the floating-point results, and the outcome of the
`k`-th call of `recv`. -/
structure Env where
  sockRet : Int
  connRet : Int
  heap : Nat → Int
  dmaxInit : Int
  wave : Waveform
  recvs : Nat → Recv

/-- What has been observed of a run: the calls made so far and the exit status,
`none` while the program is inside `while(1)`. -/
structure Run where
  out : List Event
  status : Option Int

/-- Lines 59-66: the three calls of `send`. -/
def handshake (data : Nat → Int) : List Event :=
  [ Event.sendCommand (configureCommand size) 12,
    Event.sendData data (mul32 16 size).toNat,
    Event.sendCommand (triggerCommand size) 4 ]

/-- The function `main`, observed up to the end of the `k`-th iteration of the
monitoring loop. -/
def mainRun (env : Env) (k : Nat) : Run :=
  if env.sockRet < 0 then Run.mk [Event.perror Syscall.socket] (some 1)
  else if env.connRet < 0 then Run.mk [Event.perror Syscall.connect] (some 1)
  else
    let data := generate env.wave size env.heap
    Run.mk (handshake data ++ monitorTrace (Locals.mk data env.dmaxInit) env.recvs k) none

/-! ## Reference notions of the specification -/

/-- The largest absolute difference of adjacent in-phase components, taken over
the integers: the maximum over `i = 1, ..., n - 1` of `|I i - I (i - 1)|`. -/
def specDmax (n : Nat) (I : Nat → Int) : Int :=
  ((List.range (n - 1)).map (fun j => |I (j + 1) - I j|)).foldl max 0

/-! ## Sample buffers -/

/-- A buffer whose records have in-phase component `i` at record `i`; the other
three words of a record are `7`. -/
def rampBuf : Nat → Int := fun j => if j % 4 = 0 then (j / 4 : Nat) else 7

/-- A buffer whose in-phase component is `v` at record `k` and `0` elsewhere;
the other three words of a record are `-3`. -/
def spikeBuf (k : Nat) (v : Int) : Nat → Int :=
  fun j => if j % 4 = 0 then (if j / 4 = k then v else 0) else -3

/-- A buffer with in-phase component `2100000000` at record 0, `-2100000000` at
record 1 and `0` from record 2 on. -/
def jumpBuf : Nat → Int :=
  fun j => if j = 0 then 2100000000 else if j = 4 then -2100000000 else 0

/-- A buffer all of whose words are `c`. -/
def constBuf (c : Int) : Nat → Int := fun _ => c

/-- A receive that fills the whole buffer with `buf`. -/
def fullRecv (buf : Nat → Int) : Recv := Recv.mk (16 * N) buf

/-- A receive on a connection the peer has closed: `recv` returns 0 and stores
nothing. -/
def closedRecv : Recv := Recv.mk 0 (constBuf 0)

/-- Variables with a zeroed buffer. -/
def zeroLocals : Locals := Locals.mk (constBuf 0) 0

/-- One full buffer with a spike of 5000000 at record 100, after which the peer
closes the connection. -/
def closingRecvs : Nat → Recv :=
  fun k => if k = 0 then fullRecv (spikeBuf 100 5000000) else closedRecv

/-- A buffer whose in-phase components are all `c` and whose other words are
all `q`. -/
def flatBuf (c q : Int) : Nat → Int := fun j => if j % 4 = 0 then c else q

/-- A buffer with a spike, then a buffer constant `0`, then buffers constant
`5000000`. -/
def stepRecvs : Nat → Recv :=
  fun k => if k = 0 then fullRecv (spikeBuf 100 5000000)
    else if k = 1 then fullRecv (constBuf 0) else fullRecv (constBuf 5000000)

/-- A ramp buffer, then buffers with in-phase components `0` and other words
`-1`. -/
def otherRecvs : Nat → Recv :=
  fun k => if k = 0 then fullRecv rampBuf else fullRecv (flatBuf 0 (-1))

/-- Variables holding a ramp buffer and `dmax = 99`. -/
def rampLocals : Locals := Locals.mk rampBuf 99

/-- A run in which `socket` and `connect` succeed and every receive delivers a
full ramp buffer. -/
def sampleEnv : Env :=
  { sockRet := 3, connRet := 0, heap := constBuf 0, dmaxInit := 0,
    wave := Waveform.mk (fun _ _ => 0) (fun _ _ => 0),
    recvs := fun _ => fullRecv rampBuf }

/-- A run in which `socket` and `connect` succeed, one full buffer with a spike
arrives, and the peer then closes the connection. -/
def closingEnv : Env :=
  { sockRet := 3, connRet := 0, heap := constBuf 0, dmaxInit := 0,
    wave := Waveform.mk (fun _ _ => 0) (fun _ _ => 0),
    recvs := closingRecvs }

/-! ## Machine arithmetic -/

theorem wrapInt32_eq_self {x : Int} (h : inInt32 x) : wrapInt32 x = x := by
  unfold inInt32 INT32_MIN INT32_MAX at h
  unfold wrapInt32
  omega

theorem wrapInt32_inInt32 (x : Int) : inInt32 (wrapInt32 x) := by
  unfold inInt32 INT32_MIN INT32_MAX wrapInt32
  omega

theorem toUint32_eq_toNat {x : Int} (h0 : 0 ≤ x) (h1 : x < 4294967296) :
    toUint32 x = x.toNat := by
  unfold toUint32
  rw [Int.emod_eq_of_lt h0 h1]

theorem lengthWord_eq (m : Nat) (h : m ≤ 524288) :
    lengthWord (m : Int) = 536870912 + 16 * m := by
  have e1 : mul32 16 (m : Int) = 16 * (m : Int) := by
    unfold mul32
    apply wrapInt32_eq_self
    unfold inInt32 INT32_MIN INT32_MAX
    omega
  have e2 : shl32 2 28 = 536870912 := by decide
  have e3 : add32 (shl32 2 28) (mul32 16 (m : Int)) = 536870912 + 16 * (m : Int) := by
    rw [e1, e2]
    unfold add32
    apply wrapInt32_eq_self
    unfold inInt32 INT32_MIN INT32_MAX
    omega
  unfold lengthWord
  rw [e3, toUint32_eq_toNat (by omega) (by omega)]
  omega

/-! ## Command words -/

/-- C1: the configure command built by `main` is the three words
`[20, (1<<28) | 10000000, (2<<28) | 2097152]` with `2097152 = 16 * 131072`; the
sums written with `+` equal the bitwise-or forms, no intermediate value leaves
the range of a 32-bit `int`, and words 1 and 2 carry tags 1 and 2 over the
28-bit values 10000000 and 2097152.  It is what the first `send` passes, with
length 12. -/
theorem C1_configure_command :
    configureCommand size = [20, (1 <<< 28) ||| 10000000, (2 <<< 28) ||| 2097152] ∧
    (2097152 : Int) = 16 * (size : Int) ∧ size = 131072 ∧
    rateWord = (1 <<< 28) + 10000000 ∧
    lengthWord size = (2 <<< 28) + 2097152 ∧
    inInt32 (1 * 2 ^ 28) ∧ inInt32 (1 * 2 ^ 28 + 10000000) ∧
    inInt32 (2 * 2 ^ 28) ∧ inInt32 (16 * (size : Int)) ∧
    inInt32 (2 * 2 ^ 28 + 16 * (size : Int)) ∧
    tagOf rateWord = 1 ∧ valueOf rateWord = 10000000 ∧
    tagOf (lengthWord size) = 2 ∧ valueOf (lengthWord size) = 2097152 ∧
    (∀ w ∈ configureCommand size, w < 2 ^ 32) ∧
    (∀ data : Nat → Int, (handshake data).head? =
      some (Event.sendCommand [20, 278435456, 538968064] 12)) := by
  refine ⟨by decide, by decide, rfl, by decide, by decide, by decide, by decide,
    by decide, by decide, by decide, by decide, by decide, by decide, by decide,
    by decide, ?_⟩
  intro data
  have h : configureCommand size = [20, 278435456, 538968064] := by decide
  simp [handshake, h]

/-- C2: the trigger command is the single word `3 << 28 = 0x30000000` (tag 3,
value bits all zero); the third `send` passes the array `command` with length 4,
so that it covers word 0 alone and not the configure words still held in
`command[1]` and `command[2]`. -/
theorem C2_trigger_command :
    triggerWord = 3 <<< 28 ∧ triggerWord = 0x30000000 ∧ inInt32 (3 * 2 ^ 28) ∧
    tagOf triggerWord = 3 ∧ valueOf triggerWord = 0 ∧
    triggerCommand size = [0x30000000, rateWord, lengthWord size] ∧
    (∀ data : Nat → Int,
      (handshake data).getLast? = some (Event.sendCommand (triggerCommand size) 4)) ∧
    sentWords (triggerCommand size) 4 = [0x30000000] ∧
    4 * (sentWords (triggerCommand size) 4).length = 4 := by
  refine ⟨by decide, by decide, by decide, by decide, by decide, by decide, ?_,
    by decide, by decide⟩
  intro data
  simp [handshake]

/-- C9: for every waveform length `sz` with `1 ≤ sz ≤ N`, the word
`(2 << 28) + (16 * sz)` is computed without leaving the range of a 32-bit `int`,
has tag 2 and value `16 * sz`, and `16 * sz < 2 ^ 28`; the sample-rate word
`(1 << 28) + 10000000` has tag 1 and value 10000000. -/
theorem C9_tag_and_value_do_not_collide (sz : Int) (h1 : 1 ≤ sz) (h2 : sz ≤ (N : Int)) :
    inInt32 (2 * 2 ^ 28) ∧ inInt32 (16 * sz) ∧ inInt32 (2 * 2 ^ 28 + 16 * sz) ∧
    (lengthWord sz : Int) = 2 * 2 ^ 28 + 16 * sz ∧
    tagOf (lengthWord sz) = 2 ∧ (valueOf (lengthWord sz) : Int) = 16 * sz ∧
    16 * sz < 2 ^ 28 ∧
    inInt32 (1 * 2 ^ 28 + 10000000) ∧ (rateWord : Int) = 1 * 2 ^ 28 + 10000000 ∧
    tagOf rateWord = 1 ∧ valueOf rateWord = 10000000 := by
  have hN : (N : Int) = 524288 := by decide
  rw [hN] at h2
  obtain ⟨m, rfl⟩ := Int.eq_ofNat_of_zero_le (by omega : 0 ≤ sz)
  have hm : m ≤ 524288 := by omega
  have hw := lengthWord_eq m hm
  refine ⟨by decide, ?_, ?_, ?_, ?_, ?_, ?_, by decide, by decide, by decide, by decide⟩
  · unfold inInt32 INT32_MIN INT32_MAX; omega
  · unfold inInt32 INT32_MIN INT32_MAX; omega
  · rw [hw]; push_cast; omega
  · unfold tagOf; rw [hw]; omega
  · unfold valueOf; rw [hw]; omega
  · omega

/-- Instance of C9 at the waveform length the program uses. -/
theorem C9_witness :
    inInt32 (2 * 2 ^ 28) ∧ inInt32 (16 * (131072 : Int)) ∧
    inInt32 (2 * 2 ^ 28 + 16 * (131072 : Int)) ∧
    (lengthWord 131072 : Int) = 2 * 2 ^ 28 + 16 * 131072 ∧
    tagOf (lengthWord 131072) = 2 ∧ (valueOf (lengthWord 131072) : Int) = 16 * 131072 ∧
    16 * (131072 : Int) < 2 ^ 28 ∧
    inInt32 (1 * 2 ^ 28 + 10000000) ∧ (rateWord : Int) = 1 * 2 ^ 28 + 10000000 ∧
    tagOf rateWord = 1 ∧ valueOf rateWord = 10000000 :=
  C9_tag_and_value_do_not_collide 131072 (by decide) (by decide)

/-! ## Waveform generator -/

/-- After the generator loop, record `i < sz` holds the two floating-point
results followed by two zero words, and the words from `4 * sz` on are
untouched. -/
theorem generate_spec (w : Waveform) (data : Nat → Int) (sz : Nat) :
    (∀ i, i < sz →
      generate w sz data (i * 4) = w.cosWord i sz ∧
      generate w sz data (i * 4 + 1) = w.sinWord i sz ∧
      generate w sz data (i * 4 + 2) = 0 ∧
      generate w sz data (i * 4 + 3) = 0) ∧
    (∀ j, sz * 4 ≤ j → generate w sz data j = data j) := by
  unfold generate
  generalize hsz : sz = total
  have key : ∀ n : Nat,
      (∀ i, i < n →
        (List.range n).foldl (genStep w total) data (i * 4) = w.cosWord i total ∧
        (List.range n).foldl (genStep w total) data (i * 4 + 1) = w.sinWord i total ∧
        (List.range n).foldl (genStep w total) data (i * 4 + 2) = 0 ∧
        (List.range n).foldl (genStep w total) data (i * 4 + 3) = 0) ∧
      (∀ j, n * 4 ≤ j → (List.range n).foldl (genStep w total) data j = data j) := by
    intro n
    induction n with
    | zero =>
      refine ⟨fun i hi => absurd hi (Nat.not_lt_zero i), ?_⟩
      intro j _
      rfl
    | succ n ih =>
      obtain ⟨ih1, ih2⟩ := ih
      rw [List.range_succ, List.foldl_append]
      simp only [List.foldl_cons, List.foldl_nil]
      constructor
      · intro i hi
        by_cases hin : i = n
        · subst hin
          simp [genStep, setWord]
        · obtain ⟨a0, a1, a2, a3⟩ := ih1 i (by omega)
          have n0 : ¬ (i * 4 = n * 4 + 3) := by omega
          have n1 : ¬ (i * 4 = n * 4 + 2) := by omega
          have n2 : ¬ (i * 4 = n * 4 + 1) := by omega
          have n3 : ¬ (i * 4 = n * 4) := by omega
          have m0 : ¬ (i * 4 + 1 = n * 4 + 3) := by omega
          have m1 : ¬ (i * 4 + 1 = n * 4 + 2) := by omega
          have m2 : ¬ (i * 4 + 1 = n * 4 + 1) := by omega
          have m3 : ¬ (i * 4 + 1 = n * 4) := by omega
          have p0 : ¬ (i * 4 + 2 = n * 4 + 3) := by omega
          have p1 : ¬ (i * 4 + 2 = n * 4 + 2) := by omega
          have p2 : ¬ (i * 4 + 2 = n * 4 + 1) := by omega
          have p3 : ¬ (i * 4 + 2 = n * 4) := by omega
          have q0 : ¬ (i * 4 + 3 = n * 4 + 3) := by omega
          have q1 : ¬ (i * 4 + 3 = n * 4 + 2) := by omega
          have q2 : ¬ (i * 4 + 3 = n * 4 + 1) := by omega
          have q3 : ¬ (i * 4 + 3 = n * 4) := by omega
          simp only [genStep, setWord, Nat.add_zero, if_neg n0, if_neg n1, if_neg n2,
            if_neg n3, if_neg m0, if_neg m1, if_neg m2, if_neg m3, if_neg p0, if_neg p1,
            if_neg p2, if_neg p3, if_neg q0, if_neg q1, if_neg q2, if_neg q3]
          exact ⟨a0, a1, a2, a3⟩
      · intro j hj
        have r0 : ¬ (j = n * 4 + 3) := by omega
        have r1 : ¬ (j = n * 4 + 2) := by omega
        have r2 : ¬ (j = n * 4 + 1) := by omega
        have r3 : ¬ (j = n * 4) := by omega
        simp only [genStep, setWord, Nat.add_zero, if_neg r0, if_neg r1, if_neg r2, if_neg r3]
        exact ih2 j (by omega)
  exact key total

/-! ## The scan loop -/

theorem diffAt_eq_abs (data : Nat → Int) (i : Nat)
    (h : |data (i * 4) - data ((i - 1) * 4)| < 2147483648) :
    diffAt data i = |data (i * 4) - data ((i - 1) * 4)| := by
  have hb := abs_lt.mp h
  have hs : sub32 (data (i * 4)) (data ((i - 1) * 4)) = data (i * 4) - data ((i - 1) * 4) := by
    unfold sub32
    apply wrapInt32_eq_self
    unfold inInt32 INT32_MIN INT32_MAX
    omega
  unfold diffAt abs32
  rw [hs]
  by_cases hneg : data (i * 4) - data ((i - 1) * 4) < 0
  · rw [if_pos hneg, abs_of_neg hneg]
    apply wrapInt32_eq_self
    unfold inInt32 INT32_MIN INT32_MAX
    omega
  · rw [if_neg hneg, abs_of_nonneg (not_lt.mp hneg)]
    apply wrapInt32_eq_self
    unfold inInt32 INT32_MIN INT32_MAX
    omega

theorem diffAt_le_max (data : Nat → Int) (i : Nat) : diffAt data i ≤ INT32_MAX := by
  unfold diffAt abs32
  exact (wrapInt32_inInt32 _).2

theorem scanLoop_spec (data : Nat → Int) :
    ∀ (m i : Nat) (dmax : Int),
      dmax ≤ scanLoop data m i dmax ∧
      (∀ j, i ≤ j → j < i + m → diffAt data j ≤ scanLoop data m i dmax) ∧
      (scanLoop data m i dmax = dmax ∨
        ∃ j, i ≤ j ∧ j < i + m ∧ scanLoop data m i dmax = diffAt data j) := by
  intro m
  induction m with
  | zero =>
    intro i dmax
    refine ⟨le_refl _, ?_, Or.inl rfl⟩
    intro j h1 h2
    omega
  | succ m ih =>
    intro i dmax
    obtain ⟨ih1, ih2, ih3⟩ := ih (i + 1) (scanStep data dmax i)
    have hstep1 : dmax ≤ scanStep data dmax i := by
      unfold scanStep
      by_cases hlt : dmax < diffAt data i
      · simp only [if_pos hlt]; omega
      · simp only [if_neg hlt]; omega
    have hstep2 : diffAt data i ≤ scanStep data dmax i := by
      unfold scanStep
      by_cases hlt : dmax < diffAt data i
      · simp only [if_pos hlt]; omega
      · simp only [if_neg hlt]; omega
    have hstep3 : scanStep data dmax i = dmax ∨ scanStep data dmax i = diffAt data i := by
      unfold scanStep
      by_cases hlt : dmax < diffAt data i
      · right; simp only [if_pos hlt]
      · left; simp only [if_neg hlt]
    show dmax ≤ scanLoop data m (i + 1) (scanStep data dmax i) ∧
      (∀ j, i ≤ j → j < i + (m + 1) →
        diffAt data j ≤ scanLoop data m (i + 1) (scanStep data dmax i)) ∧
      (scanLoop data m (i + 1) (scanStep data dmax i) = dmax ∨
        ∃ j, i ≤ j ∧ j < i + (m + 1) ∧
          scanLoop data m (i + 1) (scanStep data dmax i) = diffAt data j)
    refine ⟨le_trans hstep1 ih1, ?_, ?_⟩
    · intro j h1 h2
      by_cases hj : j = i
      · rw [hj]; exact le_trans hstep2 ih1
      · exact ih2 j (by omega) (by omega)
    · rcases ih3 with h | ⟨j, hj1, hj2, hj3⟩
      · rcases hstep3 with h3 | h3
        · left; rw [h, h3]
        · right; exact ⟨i, le_refl _, by omega, by rw [h, h3]⟩
      · right; exact ⟨j, by omega, by omega, hj3⟩

theorem scan_spec (n : Nat) (data : Nat → Int) :
    0 ≤ scan n data ∧
    (∀ j, 1 ≤ j → j < n → diffAt data j ≤ scan n data) ∧
    (scan n data = 0 ∨ ∃ j, 1 ≤ j ∧ j < n ∧ scan n data = diffAt data j) := by
  obtain ⟨h1, h2, h3⟩ := scanLoop_spec data (n - 1) 1 0
  refine ⟨h1, ?_, ?_⟩
  · intro j hj1 hj2
    exact h2 j hj1 (by omega)
  · rcases h3 with h | ⟨j, hj1, hj2, hj3⟩
    · exact Or.inl h
    · exact Or.inr ⟨j, hj1, by omega, hj3⟩

/-- A value that bounds every `d` of the scan from above and is `0` or one of
them is the result of the scan. -/
theorem scan_eq_of (n : Nat) (data : Nat → Int) (r : Int) (h0 : 0 ≤ r)
    (hub : ∀ j, 1 ≤ j → j < n → diffAt data j ≤ r)
    (hat : r = 0 ∨ ∃ j, 1 ≤ j ∧ j < n ∧ r = diffAt data j) :
    scan n data = r := by
  obtain ⟨s0, s1, s2⟩ := scan_spec n data
  apply le_antisymm
  · rcases s2 with h | ⟨j, hj1, hj2, hj3⟩
    · rw [h]; exact h0
    · rw [hj3]; exact hub j hj1 hj2
  · rcases hat with h | ⟨j, hj1, hj2, hj3⟩
    · rw [h]; exact s0
    · rw [hj3]; exact s1 j hj1 hj2

theorem scan_le_max (n : Nat) (data : Nat → Int) : scan n data ≤ INT32_MAX := by
  obtain ⟨_, _, s2⟩ := scan_spec n data
  rcases s2 with h | ⟨j, _, _, hj3⟩
  · rw [h]; decide
  · rw [hj3]; exact diffAt_le_max data j

/-- The scan reads the in-phase components of records `0, ..., n - 1` only. -/
theorem scan_congr (n : Nat) (d1 d2 : Nat → Int)
    (h : ∀ i, i < n → inPhase d1 i = inPhase d2 i) : scan n d1 = scan n d2 := by
  have hd : ∀ j, 1 ≤ j → j < n → diffAt d1 j = diffAt d2 j := by
    intro j hj1 hj2
    have e1 := h j hj2
    have e2 := h (j - 1) (by omega)
    unfold inPhase at e1 e2
    unfold diffAt
    rw [e1, e2]
  obtain ⟨s0, s1, s2⟩ := scan_spec n d2
  apply scan_eq_of n d1 (scan n d2) s0
  · intro j hj1 hj2
    rw [hd j hj1 hj2]; exact s1 j hj1 hj2
  · rcases s2 with h2 | ⟨j, hj1, hj2, hj3⟩
    · exact Or.inl h2
    · exact Or.inr ⟨j, hj1, hj2, by rw [hd j hj1 hj2]; exact hj3⟩

/-! ## The reference maximum -/

theorem foldl_max_spec (l : List Int) :
    ∀ a : Int, a ≤ l.foldl max a ∧ (∀ x ∈ l, x ≤ l.foldl max a) ∧
      (l.foldl max a = a ∨ l.foldl max a ∈ l) := by
  induction l with
  | nil =>
    intro a
    simp
  | cons y t ih =>
    intro a
    obtain ⟨h1, h2, h3⟩ := ih (max a y)
    simp only [List.foldl_cons, List.mem_cons]
    refine ⟨le_trans (le_max_left a y) h1, ?_, ?_⟩
    · intro x hx
      rcases hx with hx | hx
      · rw [hx]; exact le_trans (le_max_right a y) h1
      · exact h2 x hx
    · rcases h3 with h | h
      · rcases max_choice a y with hm | hm
        · left; rw [h, hm]
        · right; left; rw [h, hm]
      · right; right; exact h

theorem specDmax_spec (n : Nat) (I : Nat → Int) :
    0 ≤ specDmax n I ∧
    (∀ i, 1 ≤ i → i < n → |I i - I (i - 1)| ≤ specDmax n I) ∧
    (specDmax n I = 0 ∨ ∃ i, 1 ≤ i ∧ i < n ∧ specDmax n I = |I i - I (i - 1)|) := by
  obtain ⟨h1, h2, h3⟩ :=
    foldl_max_spec ((List.range (n - 1)).map (fun j => |I (j + 1) - I j|)) 0
  refine ⟨h1, ?_, ?_⟩
  · intro i hi1 hi2
    apply h2
    rw [List.mem_map]
    refine ⟨i - 1, ?_, ?_⟩
    · rw [List.mem_range]; omega
    · have : i - 1 + 1 = i := by omega
      rw [this]
  · rcases h3 with h | h
    · exact Or.inl h
    · right
      rw [List.mem_map] at h
      obtain ⟨j, hj1, hj2⟩ := h
      rw [List.mem_range] at hj1
      refine ⟨j + 1, by omega, by omega, ?_⟩
      have : j + 1 - 1 = j := by omega
      rw [this]
      exact hj2.symm

/-! ## Sample buffers -/

theorem N_eq : N = 524288 := rfl

theorem inPhase_rampBuf (i : Nat) : inPhase rampBuf i = (i : Int) := by
  have h1 : i * 4 % 4 = 0 := by omega
  have h2 : i * 4 / 4 = i := by omega
  unfold inPhase rampBuf
  rw [if_pos h1, h2]

theorem inPhase_spikeBuf (k : Nat) (v : Int) (i : Nat) :
    inPhase (spikeBuf k v) i = if i = k then v else 0 := by
  have h1 : i * 4 % 4 = 0 := by omega
  have h2 : i * 4 / 4 = i := by omega
  unfold inPhase spikeBuf
  rw [if_pos h1, h2]

theorem inPhase_jumpBuf (i : Nat) :
    inPhase jumpBuf i = if i = 0 then 2100000000 else if i = 1 then -2100000000 else 0 := by
  unfold inPhase jumpBuf
  by_cases h0 : i = 0
  · subst h0; rfl
  · by_cases h1 : i = 1
    · subst h1; rfl
    · rw [if_neg (by omega), if_neg (by omega), if_neg h0, if_neg h1]

theorem jumpBuf_inInt32 (j : Nat) : inInt32 (jumpBuf j) := by
  unfold jumpBuf
  by_cases h0 : j = 0
  · rw [if_pos h0]; decide
  · rw [if_neg h0]
    by_cases h4 : j = 4
    · rw [if_pos h4]; decide
    · rw [if_neg h4]; decide

theorem diffAt_jumpBuf (j : Nat) (hj : 3 ≤ j) : diffAt jumpBuf j = 0 := by
  unfold diffAt jumpBuf
  rw [if_neg (by omega), if_neg (by omega), if_neg (by omega), if_neg (by omega)]
  decide

/-! ## Continuity scan -/

/-- C4, counterexample: the buffer with in-phase components
`2100000000, -2100000000, 0, 0, ...` consists of 32-bit values, the largest
absolute difference of adjacent components over the integers is `4200000000`,
and the scan yields `2100000000`. -/
theorem C4_counterexample :
    (∀ j, inInt32 (jumpBuf j)) ∧ scan N jumpBuf = 2100000000 ∧
    specDmax N (inPhase jumpBuf) = 4200000000 ∧
    scan N jumpBuf ≠ specDmax N (inPhase jumpBuf) := by
  have hscan : scan N jumpBuf = 2100000000 := by
    apply scan_eq_of
    · decide
    · intro j hj1 hj2
      by_cases h1 : j = 1
      · subst h1; decide
      · by_cases h2 : j = 2
        · subst h2; decide
        · rw [diffAt_jumpBuf j (by omega)]; decide
    · exact Or.inr ⟨2, by decide, by decide, by decide⟩
  have hspec : specDmax N (inPhase jumpBuf) = 4200000000 := by
    obtain ⟨s0, s1, s2⟩ := specDmax_spec N (inPhase jumpBuf)
    apply le_antisymm
    · rcases s2 with h | ⟨i, hi1, hi2, hi3⟩
      · rw [h]; decide
      · rw [hi3, inPhase_jumpBuf, inPhase_jumpBuf]
        by_cases h1 : i = 1
        · subst h1; decide
        · by_cases h2 : i = 2
          · subst h2; decide
          · rw [if_neg (by omega), if_neg h1, if_neg (by omega), if_neg (by omega)]
            decide
    · have h := s1 1 (by decide) (by decide)
      rw [inPhase_jumpBuf, inPhase_jumpBuf] at h
      exact h
  refine ⟨jumpBuf_inInt32, hscan, hspec, ?_⟩
  rw [hscan, hspec]
  decide

/-- C4, amended: for every buffer of `N` records in which adjacent in-phase
components differ by less than `2 ^ 31` in absolute value, the `dmax` computed
by the scan is the maximum over `i = 1, ..., N - 1` of `|I[i] - I[i-1]|` taken
over the integers: it equals the reference maximum, bounds every such
difference, and is one of them. -/
theorem C4_dmax_is_max_abs_difference (data : Nat → Int)
    (h : ∀ i, 1 ≤ i → i < N → |inPhase data i - inPhase data (i - 1)| < 2 ^ 31) :
    scan N data = specDmax N (inPhase data) ∧
    (∀ i, 1 ≤ i → i < N → |inPhase data i - inPhase data (i - 1)| ≤ scan N data) ∧
    (∃ i, 1 ≤ i ∧ i < N ∧ scan N data = |inPhase data i - inPhase data (i - 1)|) := by
  have hd : ∀ i, 1 ≤ i → i < N →
      diffAt data i = |inPhase data i - inPhase data (i - 1)| := by
    intro i hi1 hi2
    have hi := h i hi1 hi2
    exact diffAt_eq_abs data i (by unfold inPhase at hi; omega)
  obtain ⟨s0, s1, s2⟩ := specDmax_spec N (inPhase data)
  have heq : scan N data = specDmax N (inPhase data) := by
    apply scan_eq_of N data _ s0
    · intro j hj1 hj2
      rw [hd j hj1 hj2]; exact s1 j hj1 hj2
    · rcases s2 with h2 | ⟨j, hj1, hj2, hj3⟩
      · exact Or.inl h2
      · exact Or.inr ⟨j, hj1, hj2, by rw [hd j hj1 hj2]; exact hj3⟩
  refine ⟨heq, ?_, ?_⟩
  · intro i hi1 hi2
    rw [heq]; exact s1 i hi1 hi2
  · rw [heq]
    rcases s2 with h2 | ⟨j, hj1, hj2, hj3⟩
    · refine ⟨1, by decide, by decide, ?_⟩
      have h1 := s1 1 (by decide) (by decide)
      rw [h2] at h1 ⊢
      exact le_antisymm (abs_nonneg _) h1
    · exact ⟨j, hj1, hj2, hj3⟩

/-- Instance of the amended C4 at the ramp buffer. -/
theorem C4_witness :
    scan N rampBuf = specDmax N (inPhase rampBuf) ∧
    (∀ i, 1 ≤ i → i < N → |inPhase rampBuf i - inPhase rampBuf (i - 1)| ≤ scan N rampBuf) ∧
    (∃ i, 1 ≤ i ∧ i < N ∧ scan N rampBuf = |inPhase rampBuf i - inPhase rampBuf (i - 1)|) :=
  C4_dmax_is_max_abs_difference rampBuf (by
    intro i hi1 hi2
    rw [inPhase_rampBuf, inPhase_rampBuf]
    have e : ((i : Nat) : Int) - ((i - 1 : Nat) : Int) = 1 := by omega
    rw [e]
    decide)

/-! ## Report -/

theorem report_of_gt {dmax : Int} (h : 1000000 < dmax) :
    report dmax = [Event.printf dmax] := by
  unfold report
  rw [if_pos h]

theorem report_of_le {dmax : Int} (h : dmax ≤ 1000000) : report dmax = [] := by
  unfold report
  rw [if_neg (by omega)]

theorem report_filter (dmax : Int) :
    (report dmax).filter Event.isPrintf = report dmax := by
  by_cases h : 1000000 < dmax
  · rw [report_of_gt h]; rfl
  · rw [report_of_le (by omega)]; rfl

theorem report_no_send (dmax : Int) : ∀ e ∈ report dmax, e.isSend = false := by
  intro e he
  by_cases h : 1000000 < dmax
  · rw [report_of_gt h, List.mem_singleton] at he
    rw [he]; rfl
  · rw [report_of_le (by omega)] at he
    exact absurd he (List.not_mem_nil e)

theorem scan_ramp (data : Nat → Int) (h : ∀ i, i < N → inPhase data i = (i : Int)) :
    scan N data = 1 := by
  have hd : ∀ j, 1 ≤ j → j < N → diffAt data j = 1 := by
    intro j hj1 hj2
    have e1 := h j hj2
    have e2 := h (j - 1) (by omega)
    unfold inPhase at e1 e2
    have e : data (j * 4) - data ((j - 1) * 4) = 1 := by rw [e1, e2]; omega
    rw [diffAt_eq_abs data j (by rw [e]; decide), e]
    decide
  apply scan_eq_of
  · decide
  · intro j hj1 hj2
    rw [hd j hj1 hj2]
  · exact Or.inr ⟨1, by decide, by decide, (hd 1 (by decide) (by decide)).symm⟩

theorem scan_spike (data : Nat → Int) (k : Nat) (v : Int) (hk : k < N)
    (hv1 : INT32_MIN < v) (hv2 : v ≤ INT32_MAX)
    (hI : ∀ i, i < N → inPhase data i = if i = k then v else 0) :
    scan N data = |v| := by
  unfold INT32_MIN at hv1
  unfold INT32_MAX at hv2
  have hN := N_eq
  have habs : |v| < 2147483648 := abs_lt.mpr ⟨by omega, by omega⟩
  have hcur : ∀ j, 1 ≤ j → j < N → j = k →
      data (j * 4) - data ((j - 1) * 4) = v := by
    intro j hj1 hj2 hjk
    have e1 := hI j hj2
    have e2 := hI (j - 1) (by omega)
    unfold inPhase at e1 e2
    rw [e1, e2, if_pos hjk, if_neg (by omega)]
    omega
  have hnext : ∀ j, 1 ≤ j → j < N → j - 1 = k →
      data (j * 4) - data ((j - 1) * 4) = -v := by
    intro j hj1 hj2 hjk
    have e1 := hI j hj2
    have e2 := hI (j - 1) (by omega)
    unfold inPhase at e1 e2
    rw [e1, e2, if_neg (by omega), if_pos hjk]
    omega
  have hoff : ∀ j, 1 ≤ j → j < N → j ≠ k → j - 1 ≠ k →
      data (j * 4) - data ((j - 1) * 4) = 0 := by
    intro j hj1 hj2 hjk hjk1
    have e1 := hI j hj2
    have e2 := hI (j - 1) (by omega)
    unfold inPhase at e1 e2
    rw [e1, e2, if_neg hjk, if_neg hjk1]
    omega
  apply scan_eq_of
  · exact abs_nonneg v
  · intro j hj1 hj2
    by_cases c1 : j = k
    · have e := hcur j hj1 hj2 c1
      rw [diffAt_eq_abs data j (by rw [e]; exact habs), e]
    · by_cases c2 : j - 1 = k
      · have e := hnext j hj1 hj2 c2
        rw [diffAt_eq_abs data j (by rw [e, abs_neg]; exact habs), e, abs_neg]
      · have e := hoff j hj1 hj2 c1 c2
        rw [diffAt_eq_abs data j (by rw [e]; decide), e, abs_zero]
        exact abs_nonneg v
  · right
    by_cases c0 : k = 0
    · refine ⟨1, by decide, by decide, ?_⟩
      have e := hnext 1 (by decide) (by decide) (by omega)
      rw [diffAt_eq_abs data 1 (by rw [e, abs_neg]; exact habs), e, abs_neg]
    · refine ⟨k, by omega, hk, ?_⟩
      have e := hcur k (by omega) hk rfl
      rw [diffAt_eq_abs data k (by rw [e]; exact habs), e]

/-- C5: in every iteration the value reported is decided by `dmax > 1000000`
alone: the calls of the iteration are the receive followed by `printf` of the
scan result when it exceeds 1000000 and by nothing otherwise, so a report is
exactly one value and that value is `dmax`; `dmax = 1000000` is not reported;
the buffer with `I[i] = i` gives `dmax = 1` and no report. -/
theorem C5_report_iff_above_threshold (r : Recv) (st : Locals) (dmax : Int)
    (data : Nat → Int) :
    (loopBody r st).1.dmax = scan N (recvInto r st.data) ∧
    (loopBody r st).2 = Event.recv (16 * N) r.ret :: report (loopBody r st).1.dmax ∧
    (report dmax = [Event.printf dmax] ↔ 1000000 < dmax) ∧
    (report dmax = [] ↔ dmax ≤ 1000000) ∧
    (report dmax = [Event.printf dmax] ∨ report dmax = []) ∧
    report 1000000 = [] ∧
    ((∀ i, i < N → inPhase data i = (i : Int)) →
      scan N data = 1 ∧ report (scan N data) = []) := by
  refine ⟨by simp only [loopBody], by simp only [loopBody], ?_, ?_, ?_,
    report_of_le (by decide), ?_⟩
  · constructor
    · intro h
      by_contra hle
      rw [report_of_le (by omega)] at h
      exact absurd h (by simp)
    · exact report_of_gt
  · constructor
    · intro h
      by_contra hgt
      rw [report_of_gt (by omega)] at h
      exact absurd h (by simp)
    · exact report_of_le
  · by_cases h : 1000000 < dmax
    · exact Or.inl (report_of_gt h)
    · exact Or.inr (report_of_le (by omega))
  · intro h
    have e := scan_ramp data h
    rw [e]
    exact ⟨rfl, report_of_le (by decide)⟩

/-- Instance of C5 at the ramp buffer. -/
theorem C5_witness : scan N rampBuf = 1 ∧ report (scan N rampBuf) = [] :=
  (C5_report_iff_above_threshold (fullRecv rampBuf) zeroLocals 1000000 rampBuf).2.2.2.2.2.2
    (fun i _ => inPhase_rampBuf i)

/-- C6: a buffer of `N` records whose in-phase component is `v` at record `k`
and `0` at every other record, with `k < N` and `v` a 32-bit value other than
`-2 ^ 31`, gives `dmax = |v|` whatever the other words hold; for `k = 100` and
`v = 5000000` the scan gives `5000000`, and an iteration that scans this buffer
makes the receive and exactly one `printf`, of `5000000`. -/
theorem C6_single_spike (data : Nat → Int) (k : Nat) (v : Int) (hk : k < N)
    (hv1 : INT32_MIN < v) (hv2 : v ≤ INT32_MAX)
    (hI : ∀ i, i < N → inPhase data i = if i = k then v else 0) :
    scan N data = |v| ∧
    (k = 100 → v = 5000000 →
      scan N data = 5000000 ∧ report (scan N data) = [Event.printf 5000000] ∧
      ∀ (r : Recv) (st : Locals), recvInto r st.data = data →
        (loopBody r st).2 = [Event.recv (16 * N) r.ret, Event.printf 5000000]) := by
  have hs := scan_spike data k v hk hv1 hv2 hI
  refine ⟨hs, ?_⟩
  intro _ hv
  have e : scan N data = 5000000 := by rw [hs, hv]; decide
  refine ⟨e, by rw [e]; exact report_of_gt (by decide), ?_⟩
  intro r st hr
  simp only [loopBody]
  rw [hr, e, report_of_gt (by decide)]

/-- Instance of C6 at record 100 and value 5000000. -/
theorem C6_witness :
    scan N (spikeBuf 100 5000000) = |(5000000 : Int)| ∧
    (100 = 100 → (5000000 : Int) = 5000000 →
      scan N (spikeBuf 100 5000000) = 5000000 ∧
      report (scan N (spikeBuf 100 5000000)) = [Event.printf 5000000] ∧
      ∀ (r : Recv) (st : Locals), recvInto r st.data = spikeBuf 100 5000000 →
        (loopBody r st).2 = [Event.recv (16 * N) r.ret, Event.printf 5000000]) :=
  C6_single_spike (spikeBuf 100 5000000) 100 5000000 (by decide) (by decide) (by decide)
    (fun i _ => inPhase_spikeBuf 100 5000000 i)

/-! ## Monitoring loop -/

theorem localsAfter_data (st0 : Locals) (recvs : Nat → Recv) (k : Nat) :
    (localsAfter st0 recvs k).data = recvInto (recvs k) (localsAt st0 recvs k).data := by
  simp only [localsAfter, localsAt, loopBody]

theorem localsAfter_dmax (st0 : Locals) (recvs : Nat → Recv) (k : Nat) :
    (localsAfter st0 recvs k).dmax = scan N (localsAfter st0 recvs k).data := by
  simp only [localsAfter, localsAt, loopBody]

theorem iterEvents_eq (st0 : Locals) (recvs : Nat → Recv) (k : Nat) :
    iterEvents st0 recvs k =
      Event.recv (16 * N) (recvs k).ret :: report (localsAfter st0 recvs k).dmax := by
  simp only [iterEvents, localsAfter, localsAt, loopBody]

theorem iterEvents_printf (st0 : Locals) (recvs : Nat → Recv) (k : Nat) :
    (iterEvents st0 recvs k).filter Event.isPrintf =
      report (localsAfter st0 recvs k).dmax := by
  rw [iterEvents_eq]
  have h : Event.isPrintf (Event.recv (16 * N) (recvs k).ret) = false := rfl
  rw [List.filter_cons_of_neg (by rw [h]; simp), report_filter]

theorem recvInto_of_nonpos (r : Recv) (data : Nat → Int) (h : r.ret ≤ 0) :
    recvInto r data = data := by
  funext j
  unfold recvInto
  rw [if_neg (by omega)]

theorem inPhase_recvInto_full (buf data : Nat → Int) (i : Nat) (hi : i < N) :
    inPhase (recvInto (fullRecv buf) data) i = inPhase buf i := by
  have hN := N_eq
  unfold inPhase recvInto fullRecv
  simp only
  rw [if_pos (by omega)]

theorem monitorTrace_no_send (st0 : Locals) (recvs : Nat → Recv) (k : Nat) :
    ∀ e ∈ monitorTrace st0 recvs k, e.isSend = false := by
  induction k with
  | zero =>
    intro e he
    exact absurd he (List.not_mem_nil e)
  | succ k ih =>
    intro e he
    simp only [monitorTrace, List.mem_append] at he
    rcases he with he | he
    · exact ih e he
    · rw [iterEvents_eq, List.mem_cons] at he
      rcases he with he | he
      · rw [he]; rfl
      · exact report_no_send _ e he

theorem scan_const (data : Nat → Int) (c : Int) (h : ∀ i, i < N → inPhase data i = c) :
    scan N data = 0 := by
  have hd : ∀ j, 1 ≤ j → j < N → diffAt data j = 0 := by
    intro j hj1 hj2
    have e1 := h j hj2
    have e2 := h (j - 1) (by omega)
    unfold inPhase at e1 e2
    have e : data (j * 4) - data ((j - 1) * 4) = 0 := by rw [e1, e2]; omega
    rw [diffAt_eq_abs data j (by rw [e]; decide), e]
    decide
  apply scan_eq_of
  · decide
  · intro j hj1 hj2
    rw [hd j hj1 hj2]
  · exact Or.inl rfl

/-- C3: when `socket` and `connect` succeed, the calls made up to the end of any
iteration `k` of the monitoring loop begin with the three sends (the configure
command with length 12, the waveform buffer with length `16 * size = 2097152`,
the trigger command with length 4, in this order) and continue with the calls
of the loop, none of which is a send; the program is still running. -/
theorem C3_send_sequence (env : Env) (k : Nat) (hs : 0 ≤ env.sockRet)
    (hc : 0 ≤ env.connRet) :
    (mainRun env k).out =
      [ Event.sendCommand [20, 278435456, 538968064] 12,
        Event.sendData (generate env.wave size env.heap) 2097152,
        Event.sendCommand [805306368, 278435456, 538968064] 4 ] ++
      monitorTrace (Locals.mk (generate env.wave size env.heap) env.dmaxInit) env.recvs k ∧
    (∀ e ∈ monitorTrace (Locals.mk (generate env.wave size env.heap) env.dmaxInit)
        env.recvs k, e.isSend = false) ∧
    (mainRun env k).out.filter Event.isSend =
      [ Event.sendCommand [20, 278435456, 538968064] 12,
        Event.sendData (generate env.wave size env.heap) 2097152,
        Event.sendCommand [805306368, 278435456, 538968064] 4 ] ∧
    sentWords [20, 278435456, 538968064] 12 = [20, 278435456, 538968064] ∧
    sentWords [805306368, 278435456, 538968064] 4 = [805306368] ∧
    (2097152 : Int) = 16 * (size : Int) ∧
    (mainRun env k).status = none := by
  have h1 : configureCommand size = [20, 278435456, 538968064] := by decide
  have h2 : triggerCommand size = [805306368, 278435456, 538968064] := by decide
  have h3 : (mul32 16 size).toNat = 2097152 := by decide
  have hno := monitorTrace_no_send
    (Locals.mk (generate env.wave size env.heap) env.dmaxInit) env.recvs k
  have hout : (mainRun env k).out =
      [ Event.sendCommand [20, 278435456, 538968064] 12,
        Event.sendData (generate env.wave size env.heap) 2097152,
        Event.sendCommand [805306368, 278435456, 538968064] 4 ] ++
      monitorTrace (Locals.mk (generate env.wave size env.heap) env.dmaxInit) env.recvs k := by
    unfold mainRun
    rw [if_neg (by omega), if_neg (by omega)]
    simp only [handshake, h1, h2, h3]
  refine ⟨hout, hno, ?_, by decide, by decide, by decide, ?_⟩
  · have hnil : (monitorTrace (Locals.mk (generate env.wave size env.heap) env.dmaxInit)
        env.recvs k).filter Event.isSend = [] := by
      rw [List.filter_eq_nil_iff]
      intro e he
      rw [hno e he]
      simp
    rw [hout, List.filter_append, hnil]
    simp [Event.isSend]
  · unfold mainRun
    rw [if_neg (by omega), if_neg (by omega)]

/-- Instance of C3 at a run of two iterations. -/
theorem C3_witness :
    (mainRun sampleEnv 2).out.filter Event.isSend =
      [ Event.sendCommand [20, 278435456, 538968064] 12,
        Event.sendData (generate sampleEnv.wave size sampleEnv.heap) 2097152,
        Event.sendCommand [805306368, 278435456, 538968064] 4 ] ∧
    (mainRun sampleEnv 2).status = none :=
  ⟨(C3_send_sequence sampleEnv 2 (by decide) (by decide)).2.2.1,
   (C3_send_sequence sampleEnv 2 (by decide) (by decide)).2.2.2.2.2.2⟩

/-! ## Receives that deliver less than a buffer -/

theorem mainRun_of_success (env : Env) (k : Nat) (hs : 0 ≤ env.sockRet)
    (hc : 0 ≤ env.connRet) :
    mainRun env k =
      Run.mk (handshake (generate env.wave size env.heap) ++
        monitorTrace (Locals.mk (generate env.wave size env.heap) env.dmaxInit) env.recvs k)
        none := by
  unfold mainRun
  rw [if_neg (by omega), if_neg (by omega)]

theorem closingRecvs_succ (k : Nat) : closingRecvs (k + 1) = closedRecv := by
  unfold closingRecvs
  rw [if_neg (by omega)]

theorem closing_inPhase (st0 : Locals) (k : Nat) :
    ∀ i, i < N → inPhase (localsAfter st0 closingRecvs k).data i =
      inPhase (spikeBuf 100 5000000) i := by
  induction k with
  | zero =>
    intro i hi
    rw [localsAfter_data]
    exact inPhase_recvInto_full _ _ i hi
  | succ k ih =>
    intro i hi
    rw [localsAfter_data, closingRecvs_succ, recvInto_of_nonpos closedRecv _ (by decide)]
    exact ih i hi

theorem closing_dmax (st0 : Locals) (k : Nat) :
    (localsAfter st0 closingRecvs k).dmax = 5000000 := by
  rw [localsAfter_dmax,
    scan_congr N _ (spikeBuf 100 5000000) (closing_inPhase st0 k),
    scan_spike (spikeBuf 100 5000000) 100 5000000 (by decide) (by decide) (by decide)
      (fun i _ => inPhase_spikeBuf 100 5000000 i)]
  decide

theorem closing_iterEvents (st0 : Locals) (k : Nat) :
    iterEvents st0 closingRecvs k =
      [Event.recv (16 * N) (closingRecvs k).ret, Event.printf 5000000] := by
  rw [iterEvents_eq, closing_dmax, report_of_gt (by decide)]

/-- C7, counterexample: in the run where one full buffer with a spike arrives
and the peer then closes the connection, the receives of iterations 1 and 2
return 0, fewer than `16 * N` bytes; the program nevertheless scans the buffer
in both iterations, prints `5000000` each time, and is still running after
iteration 2. -/
theorem C7_counterexample :
    (closingEnv.recvs 1).ret = 0 ∧ (closingEnv.recvs 1).ret < 16 * (N : Int) ∧
    (mainRun closingEnv 3).status = none ∧
    (mainRun closingEnv 3).out =
      handshake (generate closingEnv.wave size closingEnv.heap) ++
      [ Event.recv (16 * N) (16 * (N : Int)), Event.printf 5000000,
        Event.recv (16 * N) 0, Event.printf 5000000,
        Event.recv (16 * N) 0, Event.printf 5000000 ] := by
  refine ⟨by decide, by decide, ?_, ?_⟩
  · unfold mainRun
    rw [if_neg (by decide), if_neg (by decide)]
  · unfold mainRun
    rw [if_neg (by decide), if_neg (by decide)]
    have hr : closingEnv.recvs = closingRecvs := rfl
    simp only [hr, monitorTrace, closing_iterEvents]
    have e0 : (closingRecvs 0).ret = 16 * (N : Int) := by decide
    have e1 : (closingRecvs 1).ret = 0 := by decide
    have e2 : (closingRecvs 2).ret = 0 := by decide
    rw [e0, e1, e2]
    simp

/-- C7, amended: in every iteration the return value of the receive is not
examined.  Whatever it is, the buffer after the call holds the arriving words
where bytes were stored and its previous contents elsewhere (all of them when
the call returns 0 or -1), the scan runs over that buffer, `dmax` is reported
when it exceeds 1000000, the next iteration starts with another receive, and
the program is still running. -/
theorem C7_receive_result_not_examined (st0 : Locals) (recvs : Nat → Recv) (k : Nat) :
    (localsAfter st0 recvs k).data = recvInto (recvs k) (localsAt st0 recvs k).data ∧
    ((recvs k).ret ≤ 0 → (localsAfter st0 recvs k).data = (localsAt st0 recvs k).data) ∧
    (localsAfter st0 recvs k).dmax = scan N (localsAfter st0 recvs k).data ∧
    iterEvents st0 recvs k =
      Event.recv (16 * N) (recvs k).ret :: report (localsAfter st0 recvs k).dmax ∧
    (iterEvents st0 recvs (k + 1)).head? = some (Event.recv (16 * N) (recvs (k + 1)).ret) ∧
    (∀ env : Env, 0 ≤ env.sockRet → 0 ≤ env.connRet →
      (mainRun env (k + 1)).status = none ∧
      (mainRun env (k + 2)).out = (mainRun env (k + 1)).out ++
        iterEvents (Locals.mk (generate env.wave size env.heap) env.dmaxInit)
          env.recvs (k + 1)) := by
  refine ⟨localsAfter_data st0 recvs k, ?_, localsAfter_dmax st0 recvs k,
    iterEvents_eq st0 recvs k, ?_, ?_⟩
  · intro h
    rw [localsAfter_data, recvInto_of_nonpos _ _ h]
  · rw [iterEvents_eq]
    rfl
  · intro env hs hc
    rw [mainRun_of_success env (k + 1) hs hc, mainRun_of_success env (k + 2) hs hc]
    refine ⟨rfl, ?_⟩
    simp only [monitorTrace, List.append_assoc]

/-- Instance of the amended C7 at the run in which the peer closes the
connection after one buffer. -/
theorem C7_witness :
    (localsAfter zeroLocals closingRecvs 1).data = (localsAt zeroLocals closingRecvs 1).data ∧
    (mainRun closingEnv 2).status = none :=
  ⟨(C7_receive_result_not_examined zeroLocals closingRecvs 1).2.1 (by decide),
   ((C7_receive_result_not_examined zeroLocals closingRecvs 1).2.2.2.2.2 closingEnv
      (by decide) (by decide)).1⟩

/-! ## Independence of earlier buffers -/

/-- C10: the result of an iteration depends on the in-phase components of the
buffer scanned in that iteration only.  Two runs whose buffers of iteration `k`
agree on the in-phase components of records `0, ..., N - 1` have the same `dmax`
and the same report in iteration `k`, whatever the initial variables, the
earlier receives and the other words of the records.  A buffer with constant
in-phase component followed by a buffer with another constant gives `dmax = 0`
and no report in both iterations. -/
theorem C10_result_depends_on_own_buffer (st1 st2 : Locals) (recvs1 recvs2 : Nat → Recv)
    (k : Nat) (c1 c2 : Int)
    (h : ∀ i, i < N → inPhase (localsAfter st1 recvs1 k).data i =
      inPhase (localsAfter st2 recvs2 k).data i) :
    (localsAfter st1 recvs1 k).dmax = (localsAfter st2 recvs2 k).dmax ∧
    (iterEvents st1 recvs1 k).filter Event.isPrintf =
      (iterEvents st2 recvs2 k).filter Event.isPrintf ∧
    ((∀ i, i < N → inPhase (localsAfter st1 recvs1 k).data i = c1) →
     (∀ i, i < N → inPhase (localsAfter st1 recvs1 (k + 1)).data i = c2) →
      (localsAfter st1 recvs1 k).dmax = 0 ∧ (localsAfter st1 recvs1 (k + 1)).dmax = 0 ∧
      (iterEvents st1 recvs1 k).filter Event.isPrintf = [] ∧
      (iterEvents st1 recvs1 (k + 1)).filter Event.isPrintf = []) := by
  have hd : (localsAfter st1 recvs1 k).dmax = (localsAfter st2 recvs2 k).dmax := by
    rw [localsAfter_dmax, localsAfter_dmax]
    exact scan_congr N _ _ h
  refine ⟨hd, ?_, ?_⟩
  · rw [iterEvents_printf, iterEvents_printf, hd]
  · intro ha hb
    have ea : (localsAfter st1 recvs1 k).dmax = 0 := by
      rw [localsAfter_dmax]; exact scan_const _ c1 ha
    have eb : (localsAfter st1 recvs1 (k + 1)).dmax = 0 := by
      rw [localsAfter_dmax]; exact scan_const _ c2 hb
    refine ⟨ea, eb, ?_, ?_⟩
    · rw [iterEvents_printf, ea]; exact report_of_le (by decide)
    · rw [iterEvents_printf, eb]; exact report_of_le (by decide)

theorem inPhase_constBuf (c : Int) (i : Nat) : inPhase (constBuf c) i = c := rfl

theorem inPhase_flatBuf (c q : Int) (i : Nat) : inPhase (flatBuf c q) i = c := by
  unfold inPhase flatBuf
  rw [if_pos (by omega)]

theorem stepRecvs_one_inPhase (i : Nat) (hi : i < N) :
    inPhase (localsAfter zeroLocals stepRecvs 1).data i = 0 := by
  have e : stepRecvs 1 = fullRecv (constBuf 0) := by
    unfold stepRecvs
    rw [if_neg (by decide), if_pos rfl]
  rw [localsAfter_data, e, inPhase_recvInto_full _ _ i hi, inPhase_constBuf]

theorem stepRecvs_two_inPhase (i : Nat) (hi : i < N) :
    inPhase (localsAfter zeroLocals stepRecvs 2).data i = 5000000 := by
  have e : stepRecvs 2 = fullRecv (constBuf 5000000) := by
    unfold stepRecvs
    rw [if_neg (by decide), if_neg (by decide)]
  rw [localsAfter_data, e, inPhase_recvInto_full _ _ i hi, inPhase_constBuf]

theorem otherRecvs_one_inPhase (i : Nat) (hi : i < N) :
    inPhase (localsAfter rampLocals otherRecvs 1).data i = 0 := by
  have e : otherRecvs 1 = fullRecv (flatBuf 0 (-1)) := by
    unfold otherRecvs
    rw [if_neg (by decide)]
  rw [localsAfter_data, e, inPhase_recvInto_full _ _ i hi, inPhase_flatBuf]

/-- Instance of C10: a run that receives a spike buffer, a buffer constant `0`
and a buffer constant `5000000`, against a run that starts from other variables
and receives a ramp buffer and then buffers with in-phase components `0`. -/
theorem C10_witness :
    (localsAfter zeroLocals stepRecvs 1).dmax = (localsAfter rampLocals otherRecvs 1).dmax ∧
    (iterEvents zeroLocals stepRecvs 1).filter Event.isPrintf =
      (iterEvents rampLocals otherRecvs 1).filter Event.isPrintf ∧
    (localsAfter zeroLocals stepRecvs 1).dmax = 0 ∧
    (localsAfter zeroLocals stepRecvs 2).dmax = 0 ∧
    (iterEvents zeroLocals stepRecvs 1).filter Event.isPrintf = [] ∧
    (iterEvents zeroLocals stepRecvs 2).filter Event.isPrintf = [] :=
  have hw := C10_result_depends_on_own_buffer zeroLocals rampLocals stepRecvs otherRecvs 1
    0 5000000
    (fun i hi => by rw [stepRecvs_one_inPhase i hi, otherRecvs_one_inPhase i hi])
  ⟨hw.1, hw.2.1, hw.2.2 stepRecvs_one_inPhase stepRecvs_two_inPhase⟩

end SignalContinuity
